import Mathlib

/-!
# go-imap-notmuch: the mailbox backend (`pkg/notmuch/mailbox.go`)

A shallow embedding of `Mailbox` and its operations.

* A `[]*Message` slice is a `List Message`: each cell stands for the record it
  points to.  Loops that rebuild the slice in place over its own backing array
  (`newMessages := mbox.Messages[:0]`) are modelled on that array, cell by cell.
* `uint32(x)` is `x % 2^32`.
* Everything outside the process (the notmuch store, the filesystem, the clock)
  is an abstract state `σ` with one transition per call (`Sys σ`); `World σ`
  pairs it with the list of calls made so far.
* A run ends by returning, by a runtime panic (`Outcome.fault`) or by blocking
  forever on the mailbox lock (`Outcome.blocked`).
* Deferred calls run where the function returns.  Logging, the closing of files and
  of message handles (whose error is only logged) are left out.
* `pkg/uid`, `pkg/maildir`, `message.go` and the search translator are not among the
  sources: the mapper is modelled from the specification, the other helpers are
  parameters (`Deps`, `Sys`).
-/

namespace Notmuch

/-! ## Data model -/

/-- An instant (`time.Time`), as a number on the time line. -/
abbrev Time := Int

/-- A Go `error`, as its message. -/
abbrev Error := String

/-- Value of `imap.SeenFlag`. -/
def SeenFlag : String := "\\Seen"

/-- Value of `imap.DeletedFlag`. -/
def DeletedFlag : String := "\\Deleted"

/-- Conversion `uint32(x)`. -/
def uint32 (x : Nat) : Nat := x % 2 ^ 32

/-- The in-memory message record; the fields are the ones `mailbox.go` reads and writes. -/
structure Message where
  ID : String
  Uid : Nat
  Date : Time
  Size : Nat
  Filename : String
  Flags : List String
deriving DecidableEq

/-- Modelled from the spec: the Identifier Mapping Table of `pkg/uid` (not among the
sources): rows `StableMessageID → ProtocolUID`, the `NextUID` and `UidValidity`
scalars and the dirty mark. -/
structure Mapper where
  table : List (String × Nat)
  nextUID : Nat
  validity : Nat
  dirty : Bool
deriving DecidableEq

/-- Modelled from the spec: `FindOrAdd(stableID) → uid` "returns the existing UID if
present, otherwise allocates `NextUID`, increments it, inserts the row, and marks the
table dirty". -/
def Mapper.FindOrAdd (m : Mapper) (stableID : String) : Nat × Mapper :=
  match m.table.lookup stableID with
  | some u => (u, m)
  | none =>
    (m.nextUID,
      { m with table := m.table ++ [(stableID, m.nextUID)],
               nextUID := uint32 (m.nextUID + 1),
               dirty := true })

/-- Modelled from the spec: `Remove(stableID)` "deletes the row if present (no-op
otherwise); does not decrement `NextUID`". -/
def Mapper.Remove (m : Mapper) (stableID : String) : Mapper :=
  match m.table.lookup stableID with
  | some _ => { m with table := m.table.filter (fun r => r.1 != stableID), dirty := true }
  | none => m

/-- The mailbox state (`type Mailbox struct`).  The lock is held for the whole of
every operation and is not a field here; `user` is reached through `Sys`. -/
structure Mailbox where
  Messages : List Message
  name : String
  maildir : String
  query : String
  attributes : List String
  total : Nat
  recent : Nat
  unseen : Nat
  lastUpdated : Time
  uidMapper : Mapper
deriving DecidableEq

/-- Result of running an operation. -/
inductive Outcome (α : Type) where
  /-- the call returned -/
  | returned (a : α)
  /-- the call ended in a runtime panic -/
  | fault (reason : String)
  /-- the call waits forever for a lock -/
  | blocked
deriving DecidableEq

/-! ## `Expire` and `unseenSeqNum` -/

/-- Go `func (mbox *Mailbox) Expire()`. -/
def Expire (mbox : Mailbox) : Mailbox :=
  { mbox with Messages := [], total := 0, unseen := 0 }

/-- The inner loop over a message's flags: `true` as soon as one equals `flag`. -/
def hasFlag (flag : String) : List String → Bool
  | [] => false
  | f :: rest => if f == flag then true else hasFlag flag rest

/-- The loop of `unseenSeqNum`, entered at index `i` with the cells from `i` on. -/
def unseenSeqNumFrom : Nat → List Message → Nat
  | _, [] => 0
  | i, msg :: rest =>
    let seqNum := uint32 (i + 1)
    if !hasFlag SeenFlag msg.Flags then seqNum else unseenSeqNumFrom (i + 1) rest

/-- Go `func (mbox *Mailbox) unseenSeqNum() uint32`. -/
def unseenSeqNum (mbox : Mailbox) : Nat :=
  unseenSeqNumFrom 0 mbox.Messages

/-! ## The outside world -/

/-- What `os.Stat` reports about a file (`os.FileInfo`): the two fields that are read. -/
structure FileInfo where
  ModTime : Time
  Size : Nat
deriving DecidableEq

/-- A message as the store hands it out (`*notmuch.Message`): what its `ID()`,
`Filename()`, `Date()` and `Tags()` methods return. -/
structure StoreMessage where
  ID : String
  Filename : String
  Date : Time
  Tags : List String
deriving DecidableEq

/-- The protocol message `Message.Fetch` builds (`*imap.Message`), as far as it is
looked at here. -/
structure ImapMessage where
  SeqNum : Nat
  Uid : Nat
  Body : String
deriving DecidableEq

/-- A sequence set (`*imap.SeqSet`); only its `Contains` method is used. -/
structure SeqSet where
  Contains : Nat → Bool

/-- The flag operation of a STORE command (`imap.FlagsOp`). -/
inductive FlagsOp where
  | SetFlags
  | AddFlags
  | RemoveFlags
deriving DecidableEq

/-- The search criteria (`*imap.SearchCriteria`): the two sets that are filtered in
memory (`nil` is `none`) and the remaining conditions, which only the query
translator reads. -/
structure SearchCriteria where
  SeqNum : Option SeqSet
  Uid : Option SeqSet
  conditions : List String

/-- One call out of the process. -/
inductive Call where
  | openDB (readWrite : Bool)
  | closeDB
  | stat (path : String)
  | countMessages (query : String)
  | queryMessages (query : String)
  | flush
  | fetch (seqNum : Nat)
  | findMessageByFilename (filename : String)
  | rename (oldpath newpath : String)
  | removeMessage (filename : String)
  | addMessage (filename : String)
  | expireMailbox (name : String)
  | findMessage (id : String)
  | rewriteTags (id : String) (tags : List String)
  | tagsToMaildirFlags (id : String)
  | now
  | newMessageKey
  | create (filename : String)
  | readAll
  | write (filename : String)
deriving DecidableEq

/-- The calls that run a query of the store. -/
def Call.isQuery : Call → Bool
  | .countMessages _ => true
  | .queryMessages _ => true
  | _ => false

/-- Where `mbox.user.mailboxes[dest]` points. -/
inductive DestBox where
  /-- no mailbox of that name -/
  | absent
  /-- the receiver itself, whose lock the running operation holds -/
  | self
  /-- another mailbox -/
  | other
deriving DecidableEq

/-- The collaborators, each call a transition of the outside state `σ`.
An `Option Error` result is the returned `error` (`none` is `nil`). -/
structure Sys (σ : Type) where
  /-- Go `notmuch.Open(maildir, mode)` -/
  openDB : String → Bool → σ → Option Error × σ
  /-- Go `db.Close()` -/
  closeDB : σ → σ
  /-- Go `db.Path()` -/
  dbPath : σ → String
  /-- Go `os.Stat(path)`: on an error the returned `FileInfo` is `nil` (`none`) -/
  stat : String → σ → Option FileInfo × σ
  /-- Go `os.Stat(path)` whose error is tested with `os.IsNotExist`: the error when the
  test holds -/
  statNotExist : String → σ → Option Error × σ
  /-- Go `db.NewQuery(q).CountMessages()` -/
  countMessages : String → σ → Nat × σ
  /-- Go `db.NewQuery(q).Messages()` with the messages the iterator yields -/
  queryMessages : String → σ → Except Error (List StoreMessage) × σ
  /-- Go `mbox.uidMapper.Flush()` -/
  flush : Mapper → σ → Option Error × σ
  /-- Go `msg.Fetch(seqNum, items)` (`message.go` is not among the sources) -/
  fetch : Message → Nat → List String → σ → Option ImapMessage × σ
  /-- Go `db.FindMessageByFilename(filename)` -/
  findMessageByFilename : String → σ → Except Error StoreMessage × σ
  /-- Go `os.Rename(oldpath, newpath)` -/
  rename : String → String → σ → Option Error × σ
  /-- Go `db.RemoveMessage(filename)` -/
  removeMessage : String → σ → Option Error × σ
  /-- Go `db.AddMessage(filename)` -/
  addMessage : String → σ → Except Error StoreMessage × σ
  /-- Go `mbox.user.mailboxes[dest]` -/
  lookupMailbox : String → σ → DestBox
  /-- Go `destBox.Expire()` on another mailbox -/
  expireMailbox : String → σ → σ
  /-- Go `db.FindMessage(id)` -/
  findMessage : String → σ → Except Error StoreMessage × σ
  /-- Go `notMuchMessage.Atomic(...)` around `RemoveAllTags` and the `AddTag` calls:
  the error of `Atomic` itself -/
  rewriteTags : String → List String → σ → Option Error × σ
  /-- Go `notMuchMessage.TagsToMaildirFlags()` followed by `notMuchMessage.Filename()` -/
  tagsToMaildirFlags : String → σ → Except Error String × σ
  /-- Go `time.Now()` -/
  now : σ → Time × σ
  /-- Go `mbox.newMessageKey()` -/
  newMessageKey : σ → Except Error String × σ
  /-- Go `os.Create(filename)` -/
  create : String → σ → Option Error × σ
  /-- Go `io.ReadAll(body)`: the bytes read -/
  readAll : σ → Except Error (List Nat) × σ
  /-- Go `f.Write(b)` -/
  write : String → List Nat → σ → Option Error × σ

/-- The pure helpers from outside `mailbox.go`. -/
structure Deps where
  /-- Go `path.Join(elem...)` -/
  pathJoin : List String → String
  /-- Go `path.Base(p)` -/
  pathBase : String → String
  /-- Go `maildir.FlagFromFilename(f)` -/
  FlagFromFilename : String → List Nat
  /-- Go `maildir.ImapFlagFromMaildir(flag)` -/
  ImapFlagFromMaildir : Nat → String
  /-- Go `maildir.MaildirFlagFromImap(flag)`; `0` is no flag -/
  MaildirFlagFromImap : String → Nat
  /-- Go `backendutil.UpdateFlags(current, op, flags)` -/
  UpdateFlags : List String → FlagsOp → List String → List String
  /-- Go `IMAPSearchToNotmuch(criteria, true)` -/
  IMAPSearchToNotmuch : SearchCriteria → Except Error String
  /-- Go `msg.Tags()` -/
  Tags : Message → List String

/-- The outside state together with the calls made so far. -/
structure World (σ : Type) where
  store : σ
  calls : List Call
deriving DecidableEq

/-- Make the call `c`, whose effect on the outside state is `op`. -/
def World.call {σ α : Type} (w : World σ) (c : Call) (op : σ → α × σ) : α × World σ :=
  ((op w.store).1, { store := (op w.store).2, calls := w.calls ++ [c] })

/-- A call without a result. -/
def World.exec {σ : Type} (w : World σ) (c : Call) (op : σ → σ) : World σ :=
  { store := op w.store, calls := w.calls ++ [c] }

/-- Go `t.Before(u)`. -/
def Before (t u : Time) : Bool := decide (t < u)

/-! ## Refreshing the cache -/

/-- The path of the store's lock file. -/
def flintlock {σ : Type} (sys : Sys σ) (deps : Deps) (s : σ) : String :=
  deps.pathJoin [sys.dbPath s, ".notmuch", "xapian", "flintlock"]

/-- Go `err != nil || mbox.lastUpdated.Before(stat.ModTime())`; the right operand is only
evaluated when `err` is `nil`. -/
def staleSignal (mbox : Mailbox) : Option FileInfo → Bool
  | none => true
  | some fi => Before mbox.lastUpdated fi.ModTime

/-- Go `func (mbox *Mailbox) needsUpdate(db *notmuch.DB) bool`. -/
def needsUpdate {σ : Type} (sys : Sys σ) (deps : Deps) (mbox : Mailbox) (w : World σ) :
    Bool × World σ :=
  match w.call (.stat (flintlock sys deps w.store))
      (sys.stat (flintlock sys deps w.store)) with
  | (stat, w1) =>
    let needsUpdate := staleSignal mbox stat
    if decide (mbox.Messages.length > 0) && !needsUpdate then (false, w1) else (true, w1)

/-- The three count queries, in the order they are run. -/
def loadThreeCounts {σ : Type} (sys : Sys σ) (mbox : Mailbox) (w : World σ) :
    Mailbox × World σ :=
  match w.call (.countMessages mbox.query) (sys.countMessages mbox.query) with
  | (total, w1) =>
    match w1.call (.countMessages (mbox.query ++ " tag:new"))
        (sys.countMessages (mbox.query ++ " tag:new")) with
    | (recent, w2) =>
      match w2.call (.countMessages (mbox.query ++ " tag:unread"))
          (sys.countMessages (mbox.query ++ " tag:unread")) with
      | (unseen, w3) =>
        ({ mbox with total := uint32 total, recent := uint32 recent, unseen := uint32 unseen },
          w3)

/-- Go `func (mbox *Mailbox) loadCounts()`. -/
def loadCounts {σ : Type} (sys : Sys σ) (deps : Deps) (mbox : Mailbox) (w : World σ) :
    Mailbox × World σ :=
  match w.call (.openDB false) (sys.openDB mbox.maildir false) with
  | (some _, w1) => (mbox, w1)
  | (none, w1) =>
    match needsUpdate sys deps mbox w1 with
    | (true, w2) =>
      match loadThreeCounts sys mbox w2 with
      | (mbox1, w3) => (mbox1, w3.exec .closeDB sys.closeDB)
    | (false, w2) => (mbox, w2.exec .closeDB sys.closeDB)

/-- The protocol flags of a file name: the maildir flags that map to a protocol flag. -/
def imapFlagsOf (deps : Deps) (f : String) : List String :=
  (deps.FlagFromFilename f).filterMap
    (fun flag => if deps.ImapFlagFromMaildir flag != "" then
      some (deps.ImapFlagFromMaildir flag) else none)

/-- The loop `for results.Next(&message)` of `loadMessages`. -/
def loadLoop {σ : Type} (sys : Sys σ) (deps : Deps) :
    List StoreMessage → List Message → Mapper → World σ → List Message × Mapper × World σ
  | [], messages, mapper, w => (messages, mapper, w)
  | message :: rest, messages, mapper, w =>
    match w.call (.stat message.Filename) (sys.stat message.Filename) with
    | (none, w1) => loadLoop sys deps rest messages mapper w1
    | (some s, w1) =>
      loadLoop sys deps rest
        (messages ++ [{ ID := message.ID,
                        Uid := (mapper.FindOrAdd message.ID).1,
                        Date := message.Date,
                        Filename := message.Filename,
                        Flags := imapFlagsOf deps message.Filename,
                        Size := uint32 s.Size }])
        (mapper.FindOrAdd message.ID).2 w1

/-- Go `func (mbox *Mailbox) loadMessages()`. -/
def loadMessages {σ : Type} (sys : Sys σ) (deps : Deps) (mbox : Mailbox) (w : World σ) :
    Outcome (Mailbox × World σ) :=
  match w.call (.openDB false) (sys.openDB mbox.maildir false) with
  | (some _, w1) => .returned (mbox, w1)
  | (none, w1) =>
    match w1.call (.stat (flintlock sys deps w1.store))
        (sys.stat (flintlock sys deps w1.store)) with
    | (stat, w2) =>
      let needsUpdate := staleSignal mbox stat
      if decide (mbox.Messages.length > 0) && !needsUpdate then
        .returned (mbox, w2.exec .closeDB sys.closeDB)
      else
        match stat with
        | none => .fault "invalid memory address or nil pointer dereference"
        | some fi =>
          match loadThreeCounts sys { mbox with lastUpdated := fi.ModTime } w2 with
          | (mbox1, w3) =>
            match w3.call (.queryMessages mbox1.query) (sys.queryMessages mbox1.query) with
            | (.error err, _) => .fault err
            | (.ok results, w4) =>
              match loadLoop sys deps results [] mbox1.uidMapper w4 with
              | (messages, mapper, w5) =>
                match w5.call .flush (sys.flush mapper) with
                | (_, w6) =>
                  .returned ({ mbox1 with Messages := messages, uidMapper := mapper },
                    w6.exec .closeDB sys.closeDB)

/-! ## `ListMessages` -/

/-- The loop of `ListMessages` from index `i` on; `out` is what was sent on `ch`. -/
def listLoop {σ : Type} (sys : Sys σ) (uid : Bool) (seqSet : SeqSet) (items : List String) :
    Nat → List Message → List ImapMessage → World σ → List ImapMessage × World σ
  | _, [], out, w => (out, w)
  | i, msg :: rest, out, w =>
    let seqNum := uint32 (i + 1)
    let id := if uid then msg.Uid else seqNum
    if !seqSet.Contains id then listLoop sys uid seqSet items (i + 1) rest out w
    else
      match w.call (.fetch seqNum) (sys.fetch msg seqNum items) with
      | (none, w1) => listLoop sys uid seqSet items (i + 1) rest out w1
      | (some m, w1) => listLoop sys uid seqSet items (i + 1) rest (out ++ [m]) w1

/-- Go `func (mbox *Mailbox) ListMessages(uid, seqSet, items, ch) error`: the messages
sent on `ch`, the returned error, the mailbox and the world afterwards. -/
def ListMessages {σ : Type} (sys : Sys σ) (deps : Deps) (uid : Bool) (seqSet : SeqSet)
    (items : List String) (mbox : Mailbox) (w : World σ) :
    Outcome (List ImapMessage × Option Error × Mailbox × World σ) :=
  match loadMessages sys deps mbox w with
  | .fault r => .fault r
  | .blocked => .blocked
  | .returned (mbox1, w1) =>
    match listLoop sys uid seqSet items 0 mbox1.Messages [] w1 with
    | (out, w2) => .returned (out, none, mbox1, w2)

/-! ## `SearchMessages` -/

/-- The filtering loop of `SearchMessages` from index `i` on; `resultIDs` are the keys
of the map built from the query's results. -/
def searchLoop (criteria : SearchCriteria) (resultIDs : List String) :
    Nat → List Message → List Nat → List Nat
  | _, [], ids => ids
  | i, message :: rest, ids =>
    if (match criteria.SeqNum with
        | some seqNum => !seqNum.Contains (uint32 i)
        | none => false) then
      searchLoop criteria resultIDs (i + 1) rest ids
    else if (match criteria.Uid with
        | some uidSet => !uidSet.Contains message.Uid
        | none => false) then
      searchLoop criteria resultIDs (i + 1) rest ids
    else if !resultIDs.contains message.ID then
      searchLoop criteria resultIDs (i + 1) rest ids
    else
      searchLoop criteria resultIDs (i + 1) rest (ids ++ [message.Uid])

/-- Go `func (mbox *Mailbox) SearchMessages(uid bool, criteria) ([]uint32, error)`; the
parameter `uid` is not read by the body. -/
def SearchMessages {σ : Type} (sys : Sys σ) (deps : Deps) (criteria : SearchCriteria)
    (mbox : Mailbox) (w : World σ) :
    Outcome (Except Error (List Nat) × Mailbox × World σ) :=
  match loadMessages sys deps mbox w with
  | .fault r => .fault r
  | .blocked => .blocked
  | .returned (mbox1, w1) =>
    match deps.IMAPSearchToNotmuch criteria with
    | .error err => .returned (.error err, mbox1, w1)
    | .ok translated =>
      let notmuchQuery := mbox1.query ++ " " ++ translated
      match w1.call (.openDB false) (sys.openDB mbox1.maildir false) with
      | (some err, w2) => .returned (.error ("could not open mailbox: " ++ err), mbox1, w2)
      | (none, w2) =>
        match w2.call (.queryMessages notmuchQuery) (sys.queryMessages notmuchQuery) with
        | (.error err, w3) =>
          .returned (.error ("could not search: " ++ err), mbox1,
            w3.exec .closeDB sys.closeDB)
        | (.ok results, w3) =>
          .returned
            (.ok (searchLoop criteria (results.map (fun m => m.ID)) 0 mbox1.Messages []),
              mbox1, w3.exec .closeDB sys.closeDB)

/-! ## `CreateMessage` -/

/-- Go `date.IsZero()`. -/
def IsZero (t : Time) : Bool := t == 0

/-- Conversion `string(mdt)` of a maildir flag. -/
def flagString (mdt : Nat) : String := String.singleton (Char.ofNat mdt)

/-- The maildir flags of the protocol flags: those that map to a flag other than `0`. -/
def maildirFlagsOf (deps : Deps) (flags : List String) : List Nat :=
  flags.filterMap
    (fun flag => if deps.MaildirFlagFromImap flag != 0 then
      some (deps.MaildirFlagFromImap flag) else none)

/-- The path of the file a new message is written to. -/
def newFilename (deps : Deps) (mbox : Mailbox) (key : String) (maildirFlags : List Nat) :
    String :=
  if maildirFlags.length > 0 then
    deps.pathJoin [mbox.maildir, mbox.name, "cur",
      maildirFlags.foldl (fun filename mdt => filename ++ flagString mdt) (key ++ ":2,")]
  else
    deps.pathJoin [mbox.maildir, mbox.name, "new", key]

/-- Go `func (mbox *Mailbox) CreateMessage(flags []string, date time.Time, body) error`. -/
def CreateMessage {σ : Type} (sys : Sys σ) (deps : Deps) (flags : List String) (date : Time)
    (mbox : Mailbox) (w : World σ) : Outcome (Option Error × Mailbox × World σ) :=
  match (if IsZero date then w.call .now sys.now else (date, w)) with
  | (date1, w1) =>
    match w1.call .newMessageKey sys.newMessageKey with
    | (.error err, w2) => .returned (some err, mbox, w2)
    | (.ok key, w2) =>
      let filename := newFilename deps mbox key (maildirFlagsOf deps flags)
      match w2.call (.create filename) (sys.create filename) with
      | (some err, w3) => .returned (some err, mbox, w3)
      | (none, w3) =>
        match w3.call .readAll sys.readAll with
        | (.error err, w4) => .returned (some err, mbox, w4)
        | (.ok b, w4) =>
          match w4.call (.write filename) (sys.write filename b) with
          | (some err, w5) => .returned (some err, mbox, w5)
          | (none, w5) =>
            let message : Message :=
              { ID := "", Uid := 0, Date := date1, Size := uint32 b.length,
                Flags := flags, Filename := filename }
            match w5.call (.openDB true) (sys.openDB mbox.maildir true) with
            | (some err, w6) => .returned (some err, mbox, w6)
            | (none, w6) =>
              match w6.call (.addMessage filename) (sys.addMessage filename) with
              | (.error err, w7) => .returned (some err, mbox, w7.exec .closeDB sys.closeDB)
              | (.ok nmm, w7) =>
                let message1 := { message with Uid := (mbox.uidMapper.FindOrAdd nmm.ID).1 }
                let mbox1 := { mbox with uidMapper := (mbox.uidMapper.FindOrAdd nmm.ID).2 }
                match (w7.exec .closeDB sys.closeDB).call .flush
                    (sys.flush mbox1.uidMapper) with
                | (some err, w8) => .returned (some err, mbox1, w8.exec .closeDB sys.closeDB)
                | (none, w8) =>
                  .returned (none, { mbox1 with Messages := mbox1.Messages ++ [message1] },
                    w8.exec .closeDB sys.closeDB)

/-! ## `UpdateMessagesFlags` -/

/-- The loop of `UpdateMessagesFlags` from index `i` on: `done` are the cells already
passed, the third list the cells still to come. -/
def updateLoop {σ : Type} (sys : Sys σ) (deps : Deps) (uid : Bool) (seqset : SeqSet)
    (op : FlagsOp) (flags : List String) :
    Nat → List Message → List Message → World σ → Option Error × List Message × World σ
  | _, done, [], w => (none, done, w)
  | i, done, msg :: rest, w =>
    let id := if uid then msg.Uid else uint32 (i + 1)
    if !seqset.Contains id then
      updateLoop sys deps uid seqset op flags (i + 1) (done ++ [msg]) rest w
    else
      let msg1 := { msg with Flags := deps.UpdateFlags msg.Flags op flags }
      match w.call (.findMessage msg1.ID) (sys.findMessage msg1.ID) with
      | (.error err, w1) => (some err, done ++ msg1 :: rest, w1)
      | (.ok notMuchMessage, w1) =>
        match w1.call (.rewriteTags notMuchMessage.ID (deps.Tags msg1))
            (sys.rewriteTags notMuchMessage.ID (deps.Tags msg1)) with
        | (some _, w2) =>
          updateLoop sys deps uid seqset op flags (i + 1) (done ++ [msg1]) rest w2
        | (none, w2) =>
          match w2.call (.tagsToMaildirFlags notMuchMessage.ID)
              (sys.tagsToMaildirFlags notMuchMessage.ID) with
          | (.error _, w3) =>
            updateLoop sys deps uid seqset op flags (i + 1) (done ++ [msg1]) rest w3
          | (.ok newFile, w3) =>
            updateLoop sys deps uid seqset op flags (i + 1)
              (done ++ [{ msg1 with Filename := newFile }]) rest w3

/-- Go `func (mbox *Mailbox) UpdateMessagesFlags(uid, seqset, op, flags) error`. -/
def UpdateMessagesFlags {σ : Type} (sys : Sys σ) (deps : Deps) (uid : Bool) (seqset : SeqSet)
    (op : FlagsOp) (flags : List String) (mbox : Mailbox) (w : World σ) :
    Outcome (Option Error × Mailbox × World σ) :=
  match loadMessages sys deps mbox w with
  | .fault r => .fault r
  | .blocked => .blocked
  | .returned (mbox1, w1) =>
    match w1.call (.openDB true) (sys.openDB mbox1.maildir true) with
    | (some err, w2) => .returned (some ("could not open mailbox: " ++ err), mbox1, w2)
    | (none, w2) =>
      match updateLoop sys deps uid seqset op flags 0 [] mbox1.Messages w2 with
      | (err, messages, w3) =>
        .returned (err, { mbox1 with Messages := messages }, w3.exec .closeDB sys.closeDB)

/-! ## `MoveMessages` -/

/-- Result of a loop that rebuilds the list in place: the returned error, the cells of
the backing array, the length of `newMessages` and the world. -/
abbrev InPlace (σ : Type) := Option Error × List Message × Nat × World σ

/-- The loop of `MoveMessages`: `k` cells are still to be visited, `i` is the index of
the next one, `arr` the backing array shared by `mbox.Messages` and `newMessages`,
`j` the length of `newMessages`. -/
def moveLoop {σ : Type} (sys : Sys σ) (deps : Deps) (uid : Bool) (seqset : SeqSet)
    (dest maildir : String) :
    Nat → Nat → List Message → Nat → World σ → Outcome (InPlace σ)
  | 0, _, arr, j, w => .returned (none, arr, j, w)
  | k + 1, i, arr, j, w =>
    match arr[i]? with
    | none => .returned (none, arr, j, w)
    | some msg =>
      let id := if uid then msg.Uid else uint32 (i + 1)
      if !seqset.Contains id then
        moveLoop sys deps uid seqset dest maildir k (i + 1) (arr.set j msg) (j + 1) w
      else
        match w.call (.findMessageByFilename msg.Filename)
            (sys.findMessageByFilename msg.Filename) with
        | (.error _, w1) => moveLoop sys deps uid seqset dest maildir k (i + 1) arr j w1
        | (.ok message, w1) =>
          let unread := message.Tags.foldl (fun unread t => if t == "unread" then true else unread)
            false
          let destPath :=
            if unread then deps.pathJoin [maildir, dest, "new", deps.pathBase message.Filename]
            else deps.pathJoin [maildir, dest, "cur", deps.pathBase message.Filename]
          match w1.call (.rename message.Filename destPath)
              (sys.rename message.Filename destPath) with
          | (some _, w2) => moveLoop sys deps uid seqset dest maildir k (i + 1) arr j w2
          | (none, w2) =>
            match w2.call (.removeMessage message.Filename)
                (sys.removeMessage message.Filename) with
            | (some err, w3) => .returned (some err, arr, j, w3)
            | (none, w3) =>
              match w3.call (.addMessage destPath) (sys.addMessage destPath) with
              | (.error err, w4) => .returned (some err, arr, j, w4)
              | (.ok _, w4) =>
                match sys.lookupMailbox dest w4.store with
                | .absent => moveLoop sys deps uid seqset dest maildir k (i + 1) arr j w4
                | .self => .blocked
                | .other =>
                  moveLoop sys deps uid seqset dest maildir k (i + 1) arr j
                    (w4.exec (.expireMailbox dest) (sys.expireMailbox dest))

/-- Go `func (mbox *Mailbox) MoveMessages(uid bool, seqset, dest string) error`. -/
def MoveMessages {σ : Type} (sys : Sys σ) (deps : Deps) (uid : Bool) (seqset : SeqSet)
    (dest : String) (mbox : Mailbox) (w : World σ) :
    Outcome (Option Error × Mailbox × World σ) :=
  match loadMessages sys deps mbox w with
  | .fault r => .fault r
  | .blocked => .blocked
  | .returned (mbox1, w1) =>
    match w1.call (.openDB true) (sys.openDB mbox1.maildir true) with
    | (some err, w2) => .returned (some ("could not open mailbox: " ++ err), mbox1, w2)
    | (none, w2) =>
      match w2.call (.stat (deps.pathJoin [mbox1.maildir, dest]))
          (sys.statNotExist (deps.pathJoin [mbox1.maildir, dest])) with
      | (some err, w3) =>
        .returned (some ("could not find destination: " ++ err), mbox1,
          w3.exec .closeDB sys.closeDB)
      | (none, w3) =>
        match moveLoop sys deps uid seqset dest mbox1.maildir mbox1.Messages.length 0
            mbox1.Messages 0 w3 with
        | .fault r => .fault r
        | .blocked => .blocked
        | .returned (some err, arr, _, w4) =>
          .returned (some err, { mbox1 with Messages := arr }, w4.exec .closeDB sys.closeDB)
        | .returned (none, arr, j, w4) =>
          .returned (none, { mbox1 with Messages := arr.take j },
            w4.exec .closeDB sys.closeDB)

/-! ## `Expunge` -/

/-- The loop of `Expunge`, with the arguments of `moveLoop` and the mapper. -/
def expungeLoop {σ : Type} (sys : Sys σ) :
    Nat → Nat → List Message → Nat → Mapper → World σ → InPlace σ × Mapper
  | 0, _, arr, j, mapper, w => ((none, arr, j, w), mapper)
  | k + 1, i, arr, j, mapper, w =>
    match arr[i]? with
    | none => ((none, arr, j, w), mapper)
    | some message =>
      if hasFlag DeletedFlag message.Flags then
        match w.call (.removeMessage message.Filename)
            (sys.removeMessage message.Filename) with
        | (some err, w1) => ((some err, arr, j, w1), mapper.Remove message.ID)
        | (none, w1) => expungeLoop sys k (i + 1) arr j (mapper.Remove message.ID) w1
      else
        expungeLoop sys k (i + 1) (arr.set j message) (j + 1) mapper w

/-- Go `func (mbox *Mailbox) Expunge() error`. -/
def Expunge {σ : Type} (sys : Sys σ) (mbox : Mailbox) (w : World σ) :
    Option Error × Mailbox × World σ :=
  match w.call (.openDB true) (sys.openDB mbox.maildir true) with
  | (some err, w1) => (some err, mbox, w1)
  | (none, w1) =>
    match expungeLoop sys mbox.Messages.length 0 mbox.Messages 0 mbox.uidMapper w1 with
    | ((some err, arr, _, w2), mapper) =>
      (some err, { mbox with Messages := arr, uidMapper := mapper },
        w2.exec .closeDB sys.closeDB)
    | ((none, arr, j, w2), mapper) =>
      (none, { mbox with Messages := arr.take j, uidMapper := mapper },
        w2.exec .closeDB sys.closeDB)

/-! ## A fixed store for worked examples -/

/-- The table a fixed store answers from. -/
structure Fixture where
  /-- what `os.Stat` reports for the lock file -/
  lock : Option FileInfo
  /-- the messages every query yields -/
  found : List StoreMessage
  /-- the file names `RemoveMessage` fails on -/
  removeFails : List String
  /-- the ids `FindMessage` fails on -/
  findFails : List String
  /-- the id the store gives a message added to it -/
  freshID : String

/-- Collaborators that answer every call from the table `t` and have no state. -/
def fixtureSys (t : Fixture) : Sys Unit where
  openDB := fun _ _ s => (none, s)
  closeDB := fun s => s
  dbPath := fun _ => "db"
  stat := fun path s =>
    (if path == "db/.notmuch/xapian/flintlock" then t.lock else some ⟨0, 0⟩, s)
  statNotExist := fun _ s => (none, s)
  countMessages := fun _ s => (t.found.length, s)
  queryMessages := fun _ s => (.ok t.found, s)
  flush := fun _ s => (none, s)
  fetch := fun msg seqNum _ s => (some ⟨seqNum, msg.Uid, ""⟩, s)
  findMessageByFilename := fun f s => (.ok ⟨"", f, 0, []⟩, s)
  rename := fun _ _ s => (none, s)
  removeMessage := fun f s =>
    (if t.removeFails.contains f then some "remove failed" else none, s)
  addMessage := fun f s => (.ok ⟨t.freshID, f, 0, []⟩, s)
  lookupMailbox := fun _ _ => .absent
  expireMailbox := fun _ s => s
  findMessage := fun id s =>
    (if t.findFails.contains id then .error "not found" else .ok ⟨id, "", 0, []⟩, s)
  rewriteTags := fun _ _ s => (none, s)
  tagsToMaildirFlags := fun id s => (.ok ("cur/" ++ id), s)
  now := fun s => (1, s)
  newMessageKey := fun s => (.ok "key", s)
  create := fun _ s => (none, s)
  readAll := fun s => (.ok [104, 105], s)
  write := fun _ _ s => (none, s)

/-- Pure helpers for the worked examples: `/`-joined paths, the maildir flag `S` (83) for
`\Seen`, file names that carry no flags, and the flag operations on lists without
repetition. -/
def fixtureDeps : Deps where
  pathJoin := fun elems => "/".intercalate elems
  pathBase := fun p => p
  FlagFromFilename := fun _ => []
  ImapFlagFromMaildir := fun mdt => if mdt == 83 then SeenFlag else ""
  MaildirFlagFromImap := fun flag => if flag == SeenFlag then 83 else 0
  UpdateFlags := fun current op flags =>
    match op with
    | .SetFlags => flags
    | .AddFlags => current ++ flags.filter (fun f => !current.contains f)
    | .RemoveFlags => current.filter (fun f => !flags.contains f)
  IMAPSearchToNotmuch := fun _ => .ok "*"
  Tags := fun _ => []

/-- A message record of the worked examples. -/
def sample (id : String) (uid : Nat) (flags : List String) : Message :=
  { ID := id, Uid := uid, Date := 0, Size := 0, Filename := "cur/" ++ id, Flags := flags }

/-- A mailbox of the worked examples, refreshed at time `5`. -/
def sampleBox (messages : List Message) : Mailbox :=
  { Messages := messages, name := "INBOX", maildir := "db", query := "tag:inbox",
    attributes := [], total := messages.length, recent := 2, unseen := 0,
    lastUpdated := 5,
    uidMapper := { table := messages.map (fun m => (m.ID, m.Uid)),
                   nextUID := (messages.map (fun m => m.Uid)).foldl max 0 + 1,
                   validity := 1, dirty := false } }

/-- A fixture whose lock file was last modified at time `5`. -/
def quiet : Fixture :=
  { lock := some ⟨5, 0⟩, found := [], removeFails := [], findFails := [], freshID := "id-4" }

/-- The world at the start of a worked example. -/
def start : World Unit := { store := (), calls := [] }

/-- A mailbox of three messages with UIDs 5, 7 and 9 and no flags. -/
def inbox579 : Mailbox := sampleBox [sample "a" 5 [], sample "b" 7 [], sample "c" 9 []]

/-- A mailbox of three messages with UIDs 1, 2 and 3 and no flags. -/
def inbox123 : Mailbox := sampleBox [sample "a" 1 [], sample "b" 2 [], sample "c" 3 []]

/-- A mailbox without messages. -/
def emptyBox : Mailbox := sampleBox []

/-- The sequence set `7`. -/
def only7 : SeqSet := ⟨fun q => q == 7⟩

/-- The sequence set `1`. -/
def only1 : SeqSet := ⟨fun q => q == 1⟩

/-- The sequence set `1:*`. -/
def everything : SeqSet := ⟨fun q => q != 0⟩

/-- A table whose queries yield the three messages of `inbox579`. -/
def stocked : Fixture :=
  { quiet with found := [⟨"a", "cur/a", 0, []⟩, ⟨"b", "cur/b", 0, []⟩, ⟨"c", "cur/c", 0, []⟩] }

/-- The calls of a refresh that reloads an empty result from the fixed store. -/
def reloadCalls : List Call :=
  [.openDB false, .stat "db/.notmuch/xapian/flintlock", .countMessages "tag:inbox",
    .countMessages "tag:inbox tag:new", .countMessages "tag:inbox tag:unread",
    .queryMessages "tag:inbox", .flush, .closeDB]

/-- The mailbox `emptyBox` after a refresh from the table `quiet`. -/
def reloadedEmpty : Mailbox := { emptyBox with recent := 0 }

/-- The mailbox `emptyBox` after a refresh from the table `stocked`. -/
def reloadedStocked : Mailbox :=
  { emptyBox with
    Messages := [sample "a" 1 [], sample "b" 2 [], sample "c" 3 []],
    total := 3, recent := 3, unseen := 3,
    uidMapper := { table := [("a", 1), ("b", 2), ("c", 3)], nextUID := 4, validity := 1,
                   dirty := true } }

/-- The calls of a first `ListMessages` on `emptyBox` over the table `stocked`. -/
def firstListCalls : List Call :=
  [.openDB false, .stat "db/.notmuch/xapian/flintlock", .countMessages "tag:inbox",
    .countMessages "tag:inbox tag:new", .countMessages "tag:inbox tag:unread",
    .queryMessages "tag:inbox", .stat "cur/a", .stat "cur/b", .stat "cur/c", .flush, .closeDB,
    .fetch 1, .fetch 2, .fetch 3]

/-- What a refresh started in `w` reads from the staleness signal: `none` when the
store does not open, `some none` when the signal cannot be read. -/
def observedSignal {σ : Type} (sys : Sys σ) (deps : Deps) (mbox : Mailbox) (w : World σ) :
    Option (Option FileInfo) :=
  match w.call (.openDB false) (sys.openDB mbox.maildir false) with
  | (some _, _) => none
  | (none, w1) =>
    some (w1.call (.stat (flintlock sys deps w1.store))
      (sys.stat (flintlock sys deps w1.store))).1

/-- Specification of a move: the messages whose identifier (the UID when `uid` holds, else
the 1-based position) is not in the set, in list order. -/
def notTargeted (uid : Bool) (seqset : SeqSet) (messages : List Message) : List Message :=
  (messages.enum.filter
    (fun p => !seqset.Contains (if uid then p.2.Uid else p.1 + 1))).map Prod.snd

/-- The store removals the loop of `Expunge` makes over `messages` from the store state
`s` as long as none fails: each with its file name and the store state it is made in. -/
def removalsOf {σ : Type} (sys : Sys σ) : List Message → σ → List (String × σ)
  | [], _ => []
  | message :: rest, s =>
    if hasFlag DeletedFlag message.Flags then
      (message.Filename, s) :: removalsOf sys rest (sys.removeMessage message.Filename s).2
    else
      removalsOf sys rest s

/-- Collaborators over a store whose state is the list of registered file names:
`RemoveMessage` succeeds only on a registered file and unregisters it; every other call
is answered as by `fixtureSys quiet`. -/
def registrySys : Sys (List String) where
  openDB := fun _ _ s => (none, s)
  closeDB := fun s => s
  dbPath := fun _ => "db"
  stat := fun _ s => (some ⟨5, 0⟩, s)
  statNotExist := fun _ s => (none, s)
  countMessages := fun _ s => (s.length, s)
  queryMessages := fun _ s => (.ok [], s)
  flush := fun _ s => (none, s)
  fetch := fun msg seqNum _ s => (some ⟨seqNum, msg.Uid, ""⟩, s)
  findMessageByFilename := fun f s => (.ok ⟨"", f, 0, []⟩, s)
  rename := fun _ _ s => (none, s)
  removeMessage := fun f s =>
    if s.contains f then (none, s.erase f) else (some "not registered", s)
  addMessage := fun f s => (.ok ⟨"id-4", f, 0, []⟩, f :: s)
  lookupMailbox := fun _ _ => .absent
  expireMailbox := fun _ s => s
  findMessage := fun id s => (.ok ⟨id, "", 0, []⟩, s)
  rewriteTags := fun _ _ s => (none, s)
  tagsToMaildirFlags := fun id s => (.ok ("cur/" ++ id), s)
  now := fun s => (1, s)
  newMessageKey := fun s => (.ok "key", s)
  create := fun _ s => (none, s)
  readAll := fun s => (.ok [104, 105], s)
  write := fun _ _ s => (none, s)

/-- A mailbox of three messages of which the first and the third carry `\Deleted`. -/
def inboxDeleted : Mailbox :=
  sampleBox [sample "a" 1 [DeletedFlag], sample "b" 2 [SeenFlag],
    sample "c" 3 [SeenFlag, DeletedFlag]]

/-- The world in which the files of `inboxDeleted` are registered with the store. -/
def registered : World (List String) :=
  { store := ["cur/a", "cur/b", "cur/c"], calls := [] }

/-! ## Theorems -/

theorem hasFlag_iff (flag : String) (flags : List String) :
    hasFlag flag flags = true ↔ flag ∈ flags := by
  induction flags with
  | nil => simp [hasFlag]
  | cons f rest ih =>
    by_cases h : f = flag
    · simp [hasFlag, h]
    · have h' : ¬ flag = f := fun e => h e.symm
      simp [hasFlag, h, h', ih]

theorem uint32_of_lt {x : Nat} (h : x < 2 ^ 32) : uint32 x = x := by
  unfold uint32
  exact Nat.mod_eq_of_lt h

theorem unseenSeqNumFrom_all_seen (i : Nat) (l : List Message)
    (h : ∀ m ∈ l, SeenFlag ∈ m.Flags) : unseenSeqNumFrom i l = 0 := by
  induction l generalizing i with
  | nil => rfl
  | cons m rest ih =>
    have hm : hasFlag SeenFlag m.Flags = true := (hasFlag_iff _ _).2 (h m (by simp))
    simp only [unseenSeqNumFrom, hm, Bool.not_true, Bool.false_eq_true, if_false]
    exact ih (i + 1) (fun m' hm' => h m' (by simp [hm']))

theorem unseenSeqNumFrom_first (i : Nat) (l : List Message) (hlen : i + l.length < 2 ^ 32)
    (h : ¬ ∀ m ∈ l, SeenFlag ∈ m.Flags) :
    ∃ p m, unseenSeqNumFrom i l = i + p + 1 ∧ l[p]? = some m ∧ SeenFlag ∉ m.Flags ∧
      ∀ q m', q < p → l[q]? = some m' → SeenFlag ∈ m'.Flags := by
  induction l generalizing i with
  | nil => simp at h
  | cons m rest ih =>
    by_cases hm : SeenFlag ∈ m.Flags
    · have hrest : ¬ ∀ m' ∈ rest, SeenFlag ∈ m'.Flags := by
        intro hall
        apply h
        intro m' hm'
        rcases List.mem_cons.1 hm' with rfl | hin
        · exact hm
        · exact hall m' hin
      have hlen' : (i + 1) + rest.length < 2 ^ 32 := by
        simp only [List.length_cons] at hlen
        omega
      obtain ⟨p, m0, hp, hget, hun, hbefore⟩ := ih (i + 1) hlen' hrest
      refine ⟨p + 1, m0, ?_, ?_, hun, ?_⟩
      · have hf : hasFlag SeenFlag m.Flags = true := (hasFlag_iff _ _).2 hm
        simp only [unseenSeqNumFrom, hf, Bool.not_true, Bool.false_eq_true, if_false]
        rw [hp]
        omega
      · simpa using hget
      · intro q m' hq hq'
        cases q with
        | zero =>
          simp at hq'
          rw [← hq']
          exact hm
        | succ q =>
          simp at hq'
          exact hbefore q m' (by omega) hq'
    · refine ⟨0, m, ?_, by simp, hm, ?_⟩
      · have hf : hasFlag SeenFlag m.Flags = false := by
          cases hc : hasFlag SeenFlag m.Flags with
          | false => rfl
          | true => exact absurd ((hasFlag_iff _ _).1 hc) hm
        simp only [unseenSeqNumFrom, hf, Bool.not_false, if_true]
        apply uint32_of_lt
        simp only [List.length_cons] at hlen
        omega
      · intro q m' hq
        omega

/-- C4. When the list is shorter than 2^32, `unseenSeqNum` is 0 if the list is empty or
every message carries `\Seen`; otherwise it is the 1-based position `p` of a message
without `\Seen` such that every message before position `p` carries `\Seen`. -/
theorem unseenSeqNum_first_unseen (mbox : Mailbox) (hlen : mbox.Messages.length < 2 ^ 32) :
    ((mbox.Messages = [] ∨ ∀ m ∈ mbox.Messages, SeenFlag ∈ m.Flags) →
        unseenSeqNum mbox = 0) ∧
    ((¬ ∀ m ∈ mbox.Messages, SeenFlag ∈ m.Flags) →
      ∃ p m, unseenSeqNum mbox = p ∧ 1 ≤ p ∧ mbox.Messages[p - 1]? = some m ∧
        SeenFlag ∉ m.Flags ∧
        ∀ q m', q < p - 1 → mbox.Messages[q]? = some m' → SeenFlag ∈ m'.Flags) := by
  constructor
  · intro h
    apply unseenSeqNumFrom_all_seen
    rcases h with h | h
    · simp [h]
    · exact h
  · intro h
    obtain ⟨p, m, hp, hget, hun, hbefore⟩ :=
      unseenSeqNumFrom_first 0 mbox.Messages (by omega) h
    refine ⟨p + 1, m, ?_, by omega, by simpa using hget, hun, ?_⟩
    · simp only [unseenSeqNum, hp]
      omega
    · intro q m' hq
      exact hbefore q m' (by omega)

/-- Witness of C4: in a list of three messages whose third is the first without
`\Seen`, the result is 3. -/
theorem unseenSeqNum_first_unseen_witness :
    unseenSeqNum (sampleBox [sample "a" 1 [SeenFlag], sample "b" 2 ["\\Flagged", SeenFlag],
      sample "c" 3 []]) = 3 ∧
    ∃ p m, unseenSeqNum (sampleBox [sample "a" 1 [SeenFlag],
        sample "b" 2 ["\\Flagged", SeenFlag], sample "c" 3 []]) = p ∧ 1 ≤ p ∧
      (sampleBox [sample "a" 1 [SeenFlag], sample "b" 2 ["\\Flagged", SeenFlag],
        sample "c" 3 []]).Messages[p - 1]? = some m ∧ SeenFlag ∉ m.Flags ∧
      ∀ q m', q < p - 1 →
        (sampleBox [sample "a" 1 [SeenFlag], sample "b" 2 ["\\Flagged", SeenFlag],
          sample "c" 3 []]).Messages[q]? = some m' → SeenFlag ∈ m'.Flags :=
  ⟨by decide,
    (unseenSeqNum_first_unseen _ (by decide)).2 (by decide)⟩

/-- For every state, `Expire` empties the list and zeroes the total and unseen counts, and
leaves the recent count as it was. -/
theorem Expire_keeps_recent (mbox : Mailbox) :
    (Expire mbox).Messages = [] ∧ (Expire mbox).total = 0 ∧ (Expire mbox).unseen = 0 ∧
      (Expire mbox).recent = mbox.recent :=
  ⟨rfl, rfl, rfl, rfl⟩

/-- C9. On a mailbox whose recent count is 2, `Expire` leaves an empty list, total 0 and
unseen 0, but the recent count is still 2, not zero. -/
theorem Expire_recent_not_zero :
    emptyBox.recent = 2 ∧ (Expire emptyBox).Messages = [] ∧ (Expire emptyBox).total = 0 ∧
      (Expire emptyBox).unseen = 0 ∧ (Expire emptyBox).recent = 2 := by
  decide

/-- C8. When the store opens and the staleness signal cannot be read, `needsUpdate`
(called on the opened store) returns true, but `loadMessages` does not complete a
reload: it ends in a runtime panic at `mbox.lastUpdated = stat.ModTime()`, where `stat`
is `nil`. -/
theorem loadMessages_unreadable_signal_faults {σ : Type} (sys : Sys σ) (deps : Deps)
    (mbox : Mailbox) (w : World σ) (hsignal : observedSignal sys deps mbox w = some none) :
    (needsUpdate sys deps mbox
        (w.call (.openDB false) (sys.openDB mbox.maildir false)).2).1 = true ∧
      loadMessages sys deps mbox w =
        .fault "invalid memory address or nil pointer dereference" := by
  unfold observedSignal at hsignal
  unfold loadMessages needsUpdate
  cases hopen : (sys.openDB mbox.maildir false w.store).1 with
  | some e => simp [World.call, hopen] at hsignal
  | none =>
    simp only [World.call, hopen, Option.some.injEq] at hsignal
    simp [World.call, hopen, hsignal, staleSignal]

/-- Witness of C8: a cached list of one message and a lock file that cannot be read. -/
theorem loadMessages_unreadable_signal_faults_witness :
    (needsUpdate (fixtureSys { quiet with lock := none }) fixtureDeps
        (sampleBox [sample "a" 1 []])
        (start.call (.openDB false)
          ((fixtureSys { quiet with lock := none }).openDB "db" false)).2).1 = true ∧
      loadMessages (fixtureSys { quiet with lock := none }) fixtureDeps
          (sampleBox [sample "a" 1 []]) start =
        .fault "invalid memory address or nil pointer dereference" :=
  loadMessages_unreadable_signal_faults (fixtureSys { quiet with lock := none }) fixtureDeps
    _ _ rfl

/-! ### Rebuilding a list in place -/

theorem inplace_get {α : Type} (orig arr : List α) (i : Nat)
    (hdrop : arr.drop i = orig.drop i) : arr[i]? = orig[i]? := by
  have h1 : (arr.drop i)[0]? = (orig.drop i)[0]? := by rw [hdrop]
  simpa [List.getElem?_drop] using h1

theorem inplace_skip {α : Type} (orig arr : List α) (i : Nat)
    (hdrop : arr.drop i = orig.drop i) : arr.drop (i + 1) = orig.drop (i + 1) := by
  have h1 : (arr.drop i).drop 1 = (orig.drop i).drop 1 := by rw [hdrop]
  simpa [List.drop_drop, Nat.add_comm] using h1

theorem inplace_keep {α : Type} (orig arr : List α) (i j : Nat) (m : α)
    (hlen : arr.length = orig.length) (hji : j ≤ i) (hi : orig[i]? = some m)
    (hdrop : arr.drop i = orig.drop i) :
    (arr.set j m).length = orig.length ∧
      (arr.set j m).drop (i + 1) = orig.drop (i + 1) ∧
      (arr.set j m).take (j + 1) = arr.take j ++ [m] := by
  have hilt : i < orig.length := by
    rcases Nat.lt_or_ge i orig.length with h | h
    · exact h
    · rw [List.getElem?_eq_none h] at hi
      exact absurd hi (by simp)
  refine ⟨by simp [hlen], ?_, ?_⟩
  · rw [List.drop_set_of_lt m arr (by omega)]
    exact inplace_skip orig arr i hdrop
  · rw [List.take_succ]
    have hj : j < arr.length := by omega
    have ht : (arr.set j m).take j = arr.take j := by
      rw [List.set_take]
      apply List.set_eq_of_length_le
      simp
    rw [ht]
    simp [List.getElem?_set, hj]

theorem keptUpTo_succ {α : Type} (keep : Nat → α → Bool) (orig : List α) (i : Nat) (m : α)
    (hi : orig[i]? = some m) :
    (((orig.take (i + 1)).enum.filter (fun p => keep p.1 p.2)).map Prod.snd) =
      (((orig.take i).enum.filter (fun p => keep p.1 p.2)).map Prod.snd) ++
        (if keep i m then [m] else []) := by
  have hilt : i < orig.length := by
    rcases Nat.lt_or_ge i orig.length with h | h
    · exact h
    · rw [List.getElem?_eq_none h] at hi
      exact absurd hi (by simp)
  rw [List.take_succ, hi, List.enum_append]
  have hl : (orig.take i).length = i := by simp; omega
  simp only [hl, Option.toList, List.enumFrom_cons, List.enumFrom_nil, List.filter_append, List.map_append]
  congr 1
  by_cases hk : keep i m = true
  · simp [List.filter, hk]
  · simp [List.filter, hk]

theorem filter_getElem?_shift {α : Type} (p : α → Bool) (l : List α) (i : Nat) (m : α)
    (hi : l[i]? = some m) (hp : p m = true) :
    (l.filter p)[i - (l.take i).countP (fun x => !p x)]? = some m := by
  have hilt : i < l.length := by
    rcases Nat.lt_or_ge i l.length with h | h
    · exact h
    · rw [List.getElem?_eq_none h] at hi
      exact absurd hi (by simp)
  have hsplit : l = l.take i ++ m :: l.drop (i + 1) := by
    have hd : l.drop i = m :: l.drop (i + 1) := by
      rw [List.drop_eq_getElem_cons hilt]
      congr 1
      rw [List.getElem?_eq_getElem hilt] at hi
      exact Option.some.inj hi
    rw [← hd, List.take_append_drop]
  have hcount : (l.take i).countP (fun x => !p x) + ((l.take i).filter p).length = i := by
    have h1 := List.length_eq_countP_add_countP p (l.take i)
    have h2 : (l.take i).length = i := by simp; omega
    rw [List.countP_eq_length_filter] at h1
    have h3 : List.countP (fun a => decide ¬p a = true) (List.take i l) = (l.take i).countP (fun x => !p x) := by
      congr 1
      funext x
      cases p x <;> simp
    omega
  have hidx : i - (l.take i).countP (fun x => !p x) = ((l.take i).filter p).length := by omega
  rw [hidx]
  have hf : l.filter p = (l.take i).filter p ++ m :: (l.drop (i + 1)).filter p := by
    conv_lhs => rw [hsplit]
    rw [List.filter_append, List.filter_cons_of_pos hp]
  rw [hf, List.getElem?_append_right (Nat.le_refl _)]
  simp

theorem filter_take_succ {α : Type} (p : α → Bool) (l : List α) (i : Nat) (m : α)
    (hi : l[i]? = some m) :
    (l.take (i + 1)).filter p = (l.take i).filter p ++ (if p m then [m] else []) := by
  rw [List.take_succ, hi, List.filter_append]
  congr 1
  by_cases hp : p m = true
  · simp [Option.toList, List.filter, hp]
  · simp [Option.toList, List.filter, hp]

theorem hasFlag_eq_decide (flag : String) (flags : List String) :
    hasFlag flag flags = decide (flag ∈ flags) := by
  cases h : hasFlag flag flags with
  | true => exact (decide_eq_true ((hasFlag_iff _ _).1 h)).symm
  | false =>
    have hn : ¬ flag ∈ flags := fun hin => by
      rw [(hasFlag_iff _ _).2 hin] at h
      exact absurd h (by simp)
    exact (decide_eq_false hn).symm

theorem getElem?_mem_of_some {α : Type} (l : List α) (i : Nat) (m : α) (h : l[i]? = some m) :
    m ∈ l := by
  obtain ⟨hlt, heq⟩ := List.getElem?_eq_some_iff.1 h
  rw [← heq]
  exact List.getElem_mem hlt

/-! ### `Expunge` -/

theorem expungeLoop_success {σ : Type} (sys : Sys σ) (orig : List Message) :
    ∀ (k i : Nat) (arr : List Message) (j : Nat) (mapper : Mapper) (w : World σ),
      i + k = orig.length → arr.length = orig.length → j ≤ i → arr.drop i = orig.drop i →
      arr.take j = (orig.take i).filter (fun m => !hasFlag DeletedFlag m.Flags) →
      (∀ p ∈ removalsOf sys (orig.drop i) w.store, (sys.removeMessage p.1 p.2).1 = none) →
      (expungeLoop sys k i arr j mapper w).1.1 = none ∧
        (expungeLoop sys k i arr j mapper w).1.2.1.take
            (expungeLoop sys k i arr j mapper w).1.2.2.1 =
          orig.filter (fun m => !hasFlag DeletedFlag m.Flags) := by
  intro k
  induction k with
  | zero =>
    intro i arr j mapper w hik _ _ _ htake _
    have hi : i = orig.length := by omega
    subst hi
    simp only [expungeLoop, List.take_length] at htake ⊢
    exact ⟨trivial, htake⟩
  | succ k ih =>
    intro i arr j mapper w hik hlen hji hdrop htake hrm
    have hilt : i < orig.length := by omega
    have hget : arr[i]? = some orig[i] := by
      rw [inplace_get orig arr i hdrop, List.getElem?_eq_getElem hilt]
    have horig : orig[i]? = some orig[i] := List.getElem?_eq_getElem hilt
    rw [List.drop_eq_getElem_cons hilt] at hrm
    simp only [expungeLoop, hget]
    cases hdel : hasFlag DeletedFlag orig[i].Flags with
    | true =>
      simp only [removalsOf, hdel, if_true, List.mem_cons, forall_eq_or_imp] at hrm
      obtain ⟨hok, hrest⟩ := hrm
      simp only [World.call, hok, if_true]
      have hstep : (orig.take (i + 1)).filter (fun m => !hasFlag DeletedFlag m.Flags) =
          (orig.take i).filter (fun m => !hasFlag DeletedFlag m.Flags) := by
        rw [filter_take_succ _ orig i orig[i] horig]
        simp [hdel]
      exact ih (i + 1) arr j _ _ (by omega) hlen (by omega) (inplace_skip orig arr i hdrop)
        (by rw [hstep]; exact htake) hrest
    | false =>
      simp only [removalsOf, hdel, Bool.false_eq_true, if_false] at hrm
      simp only [Bool.false_eq_true, if_false]
      obtain ⟨h1, h2, h3⟩ := inplace_keep orig arr i j orig[i] hlen hji horig hdrop
      have hstep : (orig.take (i + 1)).filter (fun m => !hasFlag DeletedFlag m.Flags) =
          (orig.take i).filter (fun m => !hasFlag DeletedFlag m.Flags) ++ [orig[i]] := by
        rw [filter_take_succ _ orig i orig[i] horig]
        simp [hdel]
      exact ih (i + 1) _ (j + 1) _ _ (by omega) h1 (by omega) h2
        (by rw [hstep, h3, htake]) hrm

theorem expungeLoop_no_error {σ : Type} (sys : Sys σ) (orig : List Message) :
    ∀ (k i : Nat) (arr : List Message) (j : Nat) (mapper : Mapper) (w : World σ),
      i + k = orig.length → arr.length = orig.length → j ≤ i → arr.drop i = orig.drop i →
      (expungeLoop sys k i arr j mapper w).1.1 = none →
      ∀ p ∈ removalsOf sys (orig.drop i) w.store, (sys.removeMessage p.1 p.2).1 = none := by
  intro k
  induction k with
  | zero =>
    intro i arr j mapper w hik _ _ _ _
    have hi : i = orig.length := by omega
    subst hi
    simp [removalsOf]
  | succ k ih =>
    intro i arr j mapper w hik hlen hji hdrop hnone
    have hilt : i < orig.length := by omega
    have hget : arr[i]? = some orig[i] := by
      rw [inplace_get orig arr i hdrop, List.getElem?_eq_getElem hilt]
    have horig : orig[i]? = some orig[i] := List.getElem?_eq_getElem hilt
    rw [List.drop_eq_getElem_cons hilt]
    simp only [expungeLoop, hget] at hnone
    cases hdel : hasFlag DeletedFlag orig[i].Flags with
    | true =>
      simp only [hdel, if_true, World.call] at hnone
      simp only [removalsOf, hdel, if_true, List.mem_cons, forall_eq_or_imp]
      cases hrem : (sys.removeMessage orig[i].Filename w.store).1 with
      | some err => simp [hrem] at hnone
      | none =>
        simp only [hrem] at hnone
        exact ⟨rfl, ih (i + 1) arr j _ _ (by omega) hlen (by omega)
          (inplace_skip orig arr i hdrop) hnone⟩
    | false =>
      simp only [hdel, Bool.false_eq_true, if_false] at hnone
      simp only [removalsOf, hdel, Bool.false_eq_true, if_false]
      obtain ⟨h1, h2, _⟩ := inplace_keep orig arr i j orig[i] hlen hji horig hdrop
      exact ih (i + 1) _ (j + 1) _ _ (by omega) h1 (by omega) h2 hnone

/-- Once the store has opened, `Expunge` returns no error exactly when every store removal
its run makes succeeds. -/
theorem Expunge_no_error_iff {σ : Type} (sys : Sys σ) (mbox : Mailbox) (w : World σ)
    (hopen : (sys.openDB mbox.maildir true w.store).1 = none) :
    (Expunge sys mbox w).1 = none ↔
      ∀ p ∈ removalsOf sys mbox.Messages (sys.openDB mbox.maildir true w.store).2,
        (sys.removeMessage p.1 p.2).1 = none := by
  have hsucc := expungeLoop_success sys mbox.Messages mbox.Messages.length 0
    mbox.Messages 0 mbox.uidMapper
    (w.call (.openDB true) (sys.openDB mbox.maildir true)).2
    (by omega) rfl (Nat.le_refl 0) rfl (by simp)
  have hconv := expungeLoop_no_error sys mbox.Messages mbox.Messages.length 0
    mbox.Messages 0 mbox.uidMapper
    (w.call (.openDB true) (sys.openDB mbox.maildir true)).2
    (by omega) rfl (Nat.le_refl 0) rfl
  have herr : (Expunge sys mbox w).1 =
      (expungeLoop sys mbox.Messages.length 0 mbox.Messages 0 mbox.uidMapper
        (w.call (.openDB true) (sys.openDB mbox.maildir true)).2).1.1 := by
    unfold Expunge
    rcases hl : expungeLoop sys mbox.Messages.length 0 mbox.Messages 0 mbox.uidMapper
      (w.call (.openDB true) (sys.openDB mbox.maildir true)).2 with ⟨⟨e, arr, j, w2⟩, mp⟩
    simp only [World.call, hopen] at hl ⊢
    rw [hl]
    cases e <;> rfl
  rw [herr]
  simp only [List.drop_zero, World.call] at hsucc hconv
  exact ⟨hconv, fun h => (hsucc h).1⟩

/-- C1. When the store opens for writing and every store removal the run of `Expunge`
makes succeeds (each in the store state it is made in), `Expunge` returns no error and
the list afterwards is exactly the original messages without `\Deleted`, in their
order; a retained message at index `i` ends up at index `i` minus the number of deleted
messages before it. -/
theorem Expunge_retains_undeleted {σ : Type} (sys : Sys σ) (mbox : Mailbox) (w : World σ)
    (hopen : (sys.openDB mbox.maildir true w.store).1 = none)
    (hrm : ∀ p ∈ removalsOf sys mbox.Messages (sys.openDB mbox.maildir true w.store).2,
      (sys.removeMessage p.1 p.2).1 = none) :
    (Expunge sys mbox w).1 = none ∧
      (Expunge sys mbox w).2.1.Messages =
        mbox.Messages.filter (fun m => !decide (DeletedFlag ∈ m.Flags)) ∧
      ∀ i m, mbox.Messages[i]? = some m → DeletedFlag ∉ m.Flags →
        (Expunge sys mbox w).2.1.Messages[i -
          (mbox.Messages.take i).countP (fun m => decide (DeletedFlag ∈ m.Flags))]? =
            some m := by
  have hfun : (fun m : Message => !hasFlag DeletedFlag m.Flags) =
      (fun m : Message => !decide (DeletedFlag ∈ m.Flags)) := by
    funext m
    rw [hasFlag_eq_decide]
  have hloop := expungeLoop_success sys mbox.Messages mbox.Messages.length 0
    mbox.Messages 0 mbox.uidMapper
    (w.call (.openDB true) (sys.openDB mbox.maildir true)).2
    (by omega) rfl (Nat.le_refl 0) rfl (by simp)
    (by simpa [World.call] using hrm)
  rw [hfun] at hloop
  have hres : (Expunge sys mbox w).1 = none ∧
      (Expunge sys mbox w).2.1.Messages =
        mbox.Messages.filter (fun m => !decide (DeletedFlag ∈ m.Flags)) := by
    unfold Expunge
    rcases hl : expungeLoop sys mbox.Messages.length 0 mbox.Messages 0 mbox.uidMapper
      (w.call (.openDB true) (sys.openDB mbox.maildir true)).2 with ⟨⟨e, arr, j, w2⟩, mp⟩
    rw [hl] at hloop
    simp only at hloop
    obtain ⟨he, harr⟩ := hloop
    subst he
    simp only [World.call, hopen] at hl ⊢
    rw [hl]
    exact ⟨rfl, harr⟩
  refine ⟨hres.1, hres.2, ?_⟩
  intro i m hi hnot
  rw [hres.2]
  have hshift := filter_getElem?_shift (fun m : Message => !decide (DeletedFlag ∈ m.Flags))
    mbox.Messages i m hi (by simp [hnot])
  simpa using hshift

/-- Witness of C1: over a store where a file can be removed only while it is registered,
the first and the third of three messages carry `\Deleted`; both removals of the run
succeed (a second removal of either file would fail), and the second message is the
whole list afterwards. -/
theorem Expunge_retains_undeleted_witness :
    (registrySys.openDB inboxDeleted.maildir true registered.store).1 = none ∧
    removalsOf registrySys inboxDeleted.Messages
        (registrySys.openDB inboxDeleted.maildir true registered.store).2 =
      [("cur/a", ["cur/a", "cur/b", "cur/c"]), ("cur/c", ["cur/b", "cur/c"])] ∧
    (registrySys.removeMessage "cur/a" ["cur/b", "cur/c"]).1 = some "not registered" ∧
    (Expunge registrySys inboxDeleted registered).2.1.Messages = [sample "b" 2 [SeenFlag]] ∧
    ((Expunge registrySys inboxDeleted registered).1 = none ∧
      (Expunge registrySys inboxDeleted registered).2.1.Messages =
        inboxDeleted.Messages.filter (fun m => !decide (DeletedFlag ∈ m.Flags)) ∧
      ∀ i m, inboxDeleted.Messages[i]? = some m → DeletedFlag ∉ m.Flags →
        (Expunge registrySys inboxDeleted registered).2.1.Messages[i -
          (inboxDeleted.Messages.take i).countP
            (fun m => decide (DeletedFlag ∈ m.Flags))]? = some m) :=
  ⟨by decide, by decide, by decide, by decide,
    Expunge_retains_undeleted registrySys inboxDeleted registered (by decide) (by decide)⟩

/-- C10. `Expunge` on three messages with distinct UIDs, the first and the third carrying
`\Deleted`, where the store removal of the third fails: the call returns that error, and
the list it leaves holds the second message twice, so it is not a sublist of the
original list and its UIDs are not pairwise distinct. -/
theorem Expunge_failed_removal_duplicates :
    ((sampleBox [sample "a" 1 [DeletedFlag], sample "b" 2 [],
        sample "c" 3 [DeletedFlag]]).Messages.map (fun m => m.Uid)).Nodup ∧
    (Expunge (fixtureSys { quiet with removeFails := ["cur/c"] })
        (sampleBox [sample "a" 1 [DeletedFlag], sample "b" 2 [], sample "c" 3 [DeletedFlag]])
        start).1 = some "remove failed" ∧
    (Expunge (fixtureSys { quiet with removeFails := ["cur/c"] })
        (sampleBox [sample "a" 1 [DeletedFlag], sample "b" 2 [], sample "c" 3 [DeletedFlag]])
        start).2.1.Messages =
      [sample "b" 2 [], sample "b" 2 [], sample "c" 3 [DeletedFlag]] ∧
    ¬ ((Expunge (fixtureSys { quiet with removeFails := ["cur/c"] })
        (sampleBox [sample "a" 1 [DeletedFlag], sample "b" 2 [], sample "c" 3 [DeletedFlag]])
        start).2.1.Messages.map (fun m => m.Uid)).Nodup ∧
    ¬ List.Sublist
        (Expunge (fixtureSys { quiet with removeFails := ["cur/c"] })
          (sampleBox [sample "a" 1 [DeletedFlag], sample "b" 2 [],
            sample "c" 3 [DeletedFlag]]) start).2.1.Messages
        (sampleBox [sample "a" 1 [DeletedFlag], sample "b" 2 [],
          sample "c" 3 [DeletedFlag]]).Messages := by
  decide

/-! ### `MoveMessages` -/

theorem notTargeted_take_succ (uid : Bool) (seqset : SeqSet) (orig : List Message) (i : Nat)
    (m : Message) (hi : orig[i]? = some m) :
    notTargeted uid seqset (orig.take (i + 1)) =
      notTargeted uid seqset (orig.take i) ++
        (if !seqset.Contains (if uid then m.Uid else i + 1) then [m] else []) := by
  unfold notTargeted
  exact keptUpTo_succ (fun idx msg => !seqset.Contains (if uid then msg.Uid else idx + 1))
    orig i m hi

theorem moveLoop_untargeted {σ : Type} (sys : Sys σ) (deps : Deps) (uid : Bool)
    (seqset : SeqSet) (dest maildir : String) (orig : List Message)
    (hbound : orig.length < 2 ^ 32) :
    ∀ (k i : Nat) (arr : List Message) (j : Nat) (w : World σ) (arr' : List Message)
      (j' : Nat) (w' : World σ),
      i + k = orig.length → arr.length = orig.length → j ≤ i → arr.drop i = orig.drop i →
      arr.take j = notTargeted uid seqset (orig.take i) →
      moveLoop sys deps uid seqset dest maildir k i arr j w = .returned (none, arr', j', w') →
      arr'.take j' = notTargeted uid seqset orig := by
  intro k
  induction k with
  | zero =>
    intro i arr j w arr' j' w' hik _ _ _ htake h
    have hi : i = orig.length := by omega
    subst hi
    simp only [moveLoop, Outcome.returned.injEq, Prod.mk.injEq, true_and] at h
    obtain ⟨h1, h2, _⟩ := h
    subst h1
    subst h2
    simpa using htake
  | succ k ih =>
    intro i arr j w arr' j' w' hik hlen hji hdrop htake h
    have hilt : i < orig.length := by omega
    have hget : arr[i]? = some orig[i] := by
      rw [inplace_get orig arr i hdrop, List.getElem?_eq_getElem hilt]
    have horig : orig[i]? = some orig[i] := List.getElem?_eq_getElem hilt
    have hu : uint32 (i + 1) = i + 1 := uint32_of_lt (by omega)
    have hsucc := notTargeted_take_succ uid seqset orig i orig[i] horig
    simp only [moveLoop, hget, hu] at h
    by_cases hc : seqset.Contains (if uid then orig[i].Uid else i + 1) = true
    · simp only [hc, Bool.not_true, Bool.false_eq_true, if_false] at h hsucc
      have hnext : arr.take j = notTargeted uid seqset (orig.take (i + 1)) := by
        rw [hsucc, htake]
        simp
      have hskip := inplace_skip orig arr i hdrop
      have hrec : ∀ (w1 : World σ),
          moveLoop sys deps uid seqset dest maildir k (i + 1) arr j w1 =
            .returned (none, arr', j', w') → arr'.take j' = notTargeted uid seqset orig :=
        fun w1 h1 => ih (i + 1) arr j w1 arr' j' w' (by omega) hlen (by omega) hskip hnext h1
      repeat' split at h
      all_goals first
        | exact hrec _ h
        | simp at h
    · have hcf : seqset.Contains (if uid then orig[i].Uid else i + 1) = false := by
        simpa using hc
      simp only [hcf, Bool.not_false, if_true] at h hsucc
      obtain ⟨h1, h2, h3⟩ := inplace_keep orig arr i j orig[i] hlen hji horig hdrop
      exact ih (i + 1) _ (j + 1) _ _ _ _ (by omega) h1 (by omega) h2
        (by rw [hsucc, h3, htake]) h

/-- C2. Let `mbox1` be the mailbox as the refresh at the start of `MoveMessages` leaves it,
with fewer than 2^32 messages.  Whenever `MoveMessages` returns no error, the list
afterwards is exactly the messages of `mbox1` whose identifier (the UID when `uid` holds,
else the 1-based position) is not in the set, in their order; with UIDs, no message of
the list afterwards has its UID in the set. -/
theorem MoveMessages_removes_targeted {σ : Type} (sys : Sys σ) (deps : Deps) (uid : Bool)
    (seqset : SeqSet) (dest : String) (mbox mbox1 mbox2 : Mailbox) (w w1 w2 : World σ)
    (hload : loadMessages sys deps mbox w = .returned (mbox1, w1))
    (hbound : mbox1.Messages.length < 2 ^ 32)
    (hmove : MoveMessages sys deps uid seqset dest mbox w = .returned (none, mbox2, w2)) :
    mbox2.Messages = notTargeted uid seqset mbox1.Messages ∧
      (uid = true → ∀ m ∈ mbox2.Messages, seqset.Contains m.Uid = false) := by
  have hlist : mbox2.Messages = notTargeted uid seqset mbox1.Messages := by
    unfold MoveMessages at hmove
    rw [hload] at hmove
    simp only at hmove
    repeat' split at hmove
    all_goals
      simp only [Outcome.returned.injEq, Prod.mk.injEq, reduceCtorEq, false_and] at hmove
    rename_i arr j w4 hloop
    obtain ⟨_, hm, _⟩ := hmove
    rw [← hm]
    exact moveLoop_untargeted sys deps uid seqset dest mbox1.maildir mbox1.Messages hbound
      _ 0 _ 0 _ arr j w4 (by omega) rfl (Nat.le_refl 0) rfl (by simp [notTargeted]) hloop
  refine ⟨hlist, ?_⟩
  intro hu m hm
  rw [hlist] at hm
  subst hu
  simp only [notTargeted, List.mem_map, List.mem_filter, if_true, Bool.not_eq_true',
    Prod.exists, exists_and_right, exists_eq_right] at hm
  exact hm.2

/-- Witness of C2: moving UID 7 out of a list with UIDs 5, 7, 9 leaves UIDs 5 and 9. -/
theorem MoveMessages_removes_targeted_witness :
    MoveMessages (fixtureSys quiet) fixtureDeps true only7 "Archive" inbox579 start =
      .returned (none, { inbox579 with Messages := [sample "a" 5 [], sample "c" 9 []] },
        ⟨(), [.openDB false, .stat "db/.notmuch/xapian/flintlock", .closeDB, .openDB true,
          .stat "db/Archive", .findMessageByFilename "cur/b",
          .rename "cur/b" "db/Archive/cur/cur/b", .removeMessage "cur/b",
          .addMessage "db/Archive/cur/cur/b", .closeDB]⟩) ∧
    ([sample "a" 5 [], sample "c" 9 []] = notTargeted true only7 inbox579.Messages ∧
      (true = true → ∀ m ∈ [sample "a" 5 [], sample "c" 9 []], only7.Contains m.Uid = false)) :=
  ⟨by decide,
    MoveMessages_removes_targeted (fixtureSys quiet) fixtureDeps true only7 "Archive" inbox579
      inbox579 { inbox579 with Messages := [sample "a" 5 [], sample "c" 9 []] } start
      ⟨(), [.openDB false, .stat "db/.notmuch/xapian/flintlock", .closeDB]⟩
      ⟨(), [.openDB false, .stat "db/.notmuch/xapian/flintlock", .closeDB, .openDB true,
        .stat "db/Archive", .findMessageByFilename "cur/b",
        .rename "cur/b" "db/Archive/cur/cur/b", .removeMessage "cur/b",
        .addMessage "db/Archive/cur/cur/b", .closeDB]⟩
      (by decide) (by decide) (by decide)⟩

/-! ### `SearchMessages` -/

/-- C3. A search for sequence number 1 in a cached list with UIDs 5, 7, 9, where the
store query matches all three messages: the set contains 1 and not 2, the message at
position 1 has UID 5, and `SearchMessages` returns UID 7, the message at position 2,
because the loop tests the 0-based index `uint32(i)`. -/
theorem SearchMessages_tests_zero_based_index :
    only1.Contains 1 = true ∧ only1.Contains 2 = false ∧
    inbox579.Messages[0]? = some (sample "a" 5 []) ∧
    inbox579.Messages[1]? = some (sample "b" 7 []) ∧
    SearchMessages (fixtureSys stocked) fixtureDeps ⟨some only1, none, []⟩ inbox579 start =
      .returned (.ok [7], inbox579,
        ⟨(), [.openDB false, .stat "db/.notmuch/xapian/flintlock", .closeDB, .openDB false,
          .queryMessages "tag:inbox *", .closeDB]⟩) :=
  ⟨rfl, rfl, rfl, rfl, rfl⟩

/-! ### `UpdateMessagesFlags` -/

/-- C5. Adding `\Seen` to all three messages of a cached list when the store lookup of
the first fails: `UpdateMessagesFlags` returns the lookup error, and the second and
third message, which are targeted and come after the failing one, keep their old flags
instead of `UpdateFlags(old flags, op, flags)`. -/
theorem UpdateMessagesFlags_lookup_failure_aborts :
    fixtureDeps.UpdateFlags [] .AddFlags [SeenFlag] = [SeenFlag] ∧
    UpdateMessagesFlags (fixtureSys { quiet with findFails := ["a"] }) fixtureDeps true
        everything .AddFlags [SeenFlag] inbox579 start =
      .returned (some "not found",
        { inbox579 with
          Messages := [sample "a" 5 [SeenFlag], sample "b" 7 [], sample "c" 9 []] },
        ⟨(), [.openDB false, .stat "db/.notmuch/xapian/flintlock", .closeDB, .openDB true,
          .findMessage "a", .closeDB]⟩) := by
  decide

/-! ### `CreateMessage` -/

/-- C6. Whenever `CreateMessage` returns no error, the list afterwards is the previous
list with one record appended; the record's UID is the one the mapper assigns to the
StableMessageID `nmm.ID` the store returned on registration, but the record's own `ID`
field is the empty string (it is never assigned). -/
theorem CreateMessage_record_without_ID {σ : Type} (sys : Sys σ) (deps : Deps)
    (flags : List String) (date : Time) (mbox mbox' : Mailbox) (w w' : World σ)
    (h : CreateMessage sys deps flags date mbox w = .returned (none, mbox', w')) :
    ∃ (record : Message) (filename : String) (s : σ) (nmm : StoreMessage),
      mbox'.Messages = mbox.Messages ++ [record] ∧
      (sys.addMessage filename s).1 = .ok nmm ∧
      record.Uid = (mbox.uidMapper.FindOrAdd nmm.ID).1 ∧
      record.ID = "" := by
  unfold CreateMessage at h
  simp only at h
  repeat' split at h
  all_goals
    simp only [Outcome.returned.injEq, Prod.mk.injEq, reduceCtorEq, false_and] at h
  all_goals
    obtain ⟨_, hm, _⟩ := h
    subst hm
    have hadd := ‹World.call _ (Call.addMessage _) _ = (Except.ok _, _)›
    simp only [World.call, Prod.mk.injEq] at hadd
    exact ⟨_, _, _, _, rfl, hadd.1, rfl, rfl⟩

/-- Witness of C6: the store registers the new message as `id-4`, the mapper assigns it
UID 4, and the appended record has UID 4 and the empty `ID`. -/
theorem CreateMessage_record_without_ID_witness :
    ((fixtureSys quiet).addMessage "db/INBOX/cur/key:2,S" ()).1 =
      .ok ⟨"id-4", "db/INBOX/cur/key:2,S", 0, []⟩ ∧
    CreateMessage (fixtureSys quiet) fixtureDeps [SeenFlag] 3 inbox123 start =
      .returned (none,
        { inbox123 with
          Messages := inbox123.Messages ++
            [{ ID := "", Uid := 4, Date := 3, Size := 2, Filename := "db/INBOX/cur/key:2,S",
               Flags := [SeenFlag] }],
          uidMapper := { table := [("a", 1), ("b", 2), ("c", 3), ("id-4", 4)], nextUID := 5,
                         validity := 1, dirty := true } },
        ⟨(), [.newMessageKey, .create "db/INBOX/cur/key:2,S", .readAll,
          .write "db/INBOX/cur/key:2,S", .openDB true, .addMessage "db/INBOX/cur/key:2,S",
          .closeDB, .flush, .closeDB]⟩) ∧
    ∃ (record : Message) (filename : String) (s : Unit) (nmm : StoreMessage),
      (inbox123.Messages ++
          [{ ID := "", Uid := 4, Date := 3, Size := 2, Filename := "db/INBOX/cur/key:2,S",
             Flags := [SeenFlag] }] : List Message) = inbox123.Messages ++ [record] ∧
      ((fixtureSys quiet).addMessage filename s).1 = .ok nmm ∧
      record.Uid = (inbox123.uidMapper.FindOrAdd nmm.ID).1 ∧
      record.ID = "" :=
  ⟨rfl, by decide,
    CreateMessage_record_without_ID (fixtureSys quiet) fixtureDeps [SeenFlag] 3 inbox123
      { inbox123 with
        Messages := inbox123.Messages ++
          [{ ID := "", Uid := 4, Date := 3, Size := 2, Filename := "db/INBOX/cur/key:2,S",
             Flags := [SeenFlag] }],
        uidMapper := { table := [("a", 1), ("b", 2), ("c", 3), ("id-4", 4)], nextUID := 5,
                       validity := 1, dirty := true } }
      start
      ⟨(), [.newMessageKey, .create "db/INBOX/cur/key:2,S", .readAll,
        .write "db/INBOX/cur/key:2,S", .openDB true, .addMessage "db/INBOX/cur/key:2,S",
        .closeDB, .flush, .closeDB]⟩
      (by decide)⟩

/-! ### The cache of `ListMessages` -/

theorem listLoop_calls {σ : Type} (sys : Sys σ) (uid : Bool) (seqSet : SeqSet)
    (items : List String) (msgs : List Message) :
    ∀ (i : Nat) (out : List ImapMessage) (w : World σ),
      ∃ extra, (listLoop sys uid seqSet items i msgs out w).2.calls = w.calls ++ extra ∧
        ∀ c ∈ extra, c.isQuery = false := by
  induction msgs with
  | nil =>
    intro i out w
    exact ⟨[], by simp [listLoop], by simp⟩
  | cons msg rest ih =>
    intro i out w
    have hstep : ∀ (out' : List ImapMessage) (s : σ),
        ∃ extra, (listLoop sys uid seqSet items (i + 1) rest out'
            { store := s, calls := w.calls ++ [Call.fetch (uint32 (i + 1))] }).2.calls =
          w.calls ++ extra ∧ ∀ c ∈ extra, c.isQuery = false := by
      intro out' s
      obtain ⟨extra, he, hq⟩ := ih (i + 1) out'
        { store := s, calls := w.calls ++ [Call.fetch (uint32 (i + 1))] }
      refine ⟨Call.fetch (uint32 (i + 1)) :: extra, ?_, ?_⟩
      · rw [he]
        simp
      · intro c hc
        rcases List.mem_cons.1 hc with rfl | hin
        · rfl
        · exact hq c hin
    unfold listLoop
    simp only
    cases hc : seqSet.Contains (if uid = true then msg.Uid else uint32 (i + 1)) with
    | false =>
      simp only [Bool.not_false, if_true]
      exact ih _ _ _
    | true =>
      simp only [Bool.not_true, Bool.false_eq_true, if_false, World.call]
      cases hf : (sys.fetch msg (uint32 (i + 1)) items w.store).1 with
      | none => exact hstep _ _
      | some m => exact hstep _ _

theorem loadThreeCounts_frame {σ : Type} (sys : Sys σ) (mbox : Mailbox) (w : World σ) :
    (loadThreeCounts sys mbox w).1.lastUpdated = mbox.lastUpdated ∧
      (loadThreeCounts sys mbox w).1.maildir = mbox.maildir ∧
      (loadThreeCounts sys mbox w).1.Messages = mbox.Messages :=
  ⟨rfl, rfl, rfl⟩

theorem loadMessages_fresh {σ : Type} (sys : Sys σ) (deps : Deps) (mbox mbox1 : Mailbox)
    (w w1 : World σ) (fi : FileInfo)
    (hload : loadMessages sys deps mbox w = .returned (mbox1, w1))
    (hsig : observedSignal sys deps mbox w = some (some fi)) :
    Before mbox1.lastUpdated fi.ModTime = false ∧ mbox1.maildir = mbox.maildir := by
  unfold observedSignal at hsig
  unfold loadMessages at hload
  cases hopen : (sys.openDB mbox.maildir false w.store).1 with
  | some e => simp [World.call, hopen] at hsig
  | none =>
    simp only [World.call, hopen, Option.some.injEq] at hsig
    simp only [World.call, hopen, hsig] at hload
    split at hload
    · rename_i hcond
      simp only [Outcome.returned.injEq, Prod.mk.injEq] at hload
      rw [← hload.1]
      simp only [staleSignal, Bool.and_eq_true, Bool.not_eq_true'] at hcond
      exact ⟨hcond.2, rfl⟩
    · repeat' split at hload
      all_goals
        simp only [Outcome.returned.injEq, Prod.mk.injEq, reduceCtorEq] at hload
      rw [← hload.1]
      simp [Before, loadThreeCounts, World.call]

theorem loadMessages_cached {σ : Type} (sys : Sys σ) (deps : Deps) (mbox : Mailbox)
    (w : World σ) (fi : FileInfo)
    (hsig : observedSignal sys deps mbox w = some (some fi))
    (hne : mbox.Messages ≠ [])
    (hfresh : Before mbox.lastUpdated fi.ModTime = false) :
    ∃ w1, loadMessages sys deps mbox w = .returned (mbox, w1) ∧
      ∃ extra, w1.calls = w.calls ++ extra ∧ ∀ c ∈ extra, c.isQuery = false := by
  unfold observedSignal at hsig
  unfold loadMessages
  have hpos : 0 < mbox.Messages.length := List.length_pos.2 hne
  cases hopen : (sys.openDB mbox.maildir false w.store).1 with
  | some e => simp [World.call, hopen] at hsig
  | none =>
    simp only [World.call, hopen, Option.some.injEq] at hsig
    simp only [World.call, hopen, hsig, staleSignal, hfresh, hpos, gt_iff_lt, decide_True,
      Bool.not_false, Bool.and_self, if_true]
    refine ⟨_, rfl, [.openDB false,
      .stat (flintlock sys deps (sys.openDB mbox.maildir false w.store).2), .closeDB], ?_, ?_⟩
    · simp [World.exec]
    · intro c hc
      simp only [List.mem_cons, List.mem_singleton, List.not_mem_nil, or_false] at hc
      rcases hc with rfl | rfl | rfl <;> rfl

/-- C7 (amended). If two consecutive `ListMessages` calls observe the same readable
staleness-signal timestamp and the list the first call leaves is not empty, the second
call returns with the mailbox (list, counts, last-refresh timestamp) exactly as the first
call left it and makes no query of the store. -/
theorem ListMessages_cache_hit {σ : Type} (sys : Sys σ) (deps : Deps) (uid uid' : Bool)
    (seqSet seqSet' : SeqSet) (items items' : List String) (mbox mbox1 : Mailbox)
    (w w1 : World σ) (out1 : List ImapMessage) (fi1 fi2 : FileInfo)
    (hfirst : ListMessages sys deps uid seqSet items mbox w = .returned (out1, none, mbox1, w1))
    (hsig1 : observedSignal sys deps mbox w = some (some fi1))
    (hsig2 : observedSignal sys deps mbox1 w1 = some (some fi2))
    (hsame : fi2.ModTime = fi1.ModTime)
    (hne : mbox1.Messages ≠ []) :
    ∃ out2 w2,
      ListMessages sys deps uid' seqSet' items' mbox1 w1 = .returned (out2, none, mbox1, w2) ∧
      ∃ extra, w2.calls = w1.calls ++ extra ∧ ∀ c ∈ extra, c.isQuery = false := by
  have hfresh : Before mbox1.lastUpdated fi2.ModTime = false := by
    unfold ListMessages at hfirst
    split at hfirst
    · simp at hfirst
    · simp at hfirst
    · rename_i mboxa wa hload
      simp only [Outcome.returned.injEq, Prod.mk.injEq, true_and] at hfirst
      rw [hsame, ← hfirst.2.1]
      exact (loadMessages_fresh sys deps mbox mboxa w wa fi1 hload hsig1).1
  obtain ⟨wc, hload2, extra1, hcalls1, hq1⟩ :=
    loadMessages_cached sys deps mbox1 w1 fi2 hsig2 hne hfresh
  obtain ⟨extra2, hcalls2, hq2⟩ := listLoop_calls sys uid' seqSet' items' mbox1.Messages 0 [] wc
  refine ⟨(listLoop sys uid' seqSet' items' 0 mbox1.Messages [] wc).1,
    (listLoop sys uid' seqSet' items' 0 mbox1.Messages [] wc).2, ?_, extra1 ++ extra2, ?_, ?_⟩
  · unfold ListMessages
    rw [hload2]
  · rw [hcalls2, hcalls1, List.append_assoc]
  · intro c hc
    rcases List.mem_append.1 hc with h | h
    · exact hq1 c h
    · exact hq2 c h

/-- Witness of C7 (amended): the first call loads three messages at signal time 5, the
second call observes time 5 again. -/
theorem ListMessages_cache_hit_witness :
    ListMessages (fixtureSys stocked) fixtureDeps false everything [] emptyBox start =
      .returned ([⟨1, 1, ""⟩, ⟨2, 2, ""⟩, ⟨3, 3, ""⟩], none, reloadedStocked,
        ⟨(), firstListCalls⟩) ∧
    observedSignal (fixtureSys stocked) fixtureDeps emptyBox start = some (some ⟨5, 0⟩) ∧
    observedSignal (fixtureSys stocked) fixtureDeps reloadedStocked ⟨(), firstListCalls⟩ =
      some (some ⟨5, 0⟩) ∧
    ∃ out2 w2,
      ListMessages (fixtureSys stocked) fixtureDeps true only7 [] reloadedStocked
        ⟨(), firstListCalls⟩ = .returned (out2, none, reloadedStocked, w2) ∧
      ∃ extra, w2.calls = (World.mk () firstListCalls).calls ++ extra ∧
        ∀ c ∈ extra, c.isQuery = false :=
  ⟨by decide, by decide, by decide,
    ListMessages_cache_hit (fixtureSys stocked) fixtureDeps false true everything only7 [] []
      emptyBox reloadedStocked start ⟨(), firstListCalls⟩ [⟨1, 1, ""⟩, ⟨2, 2, ""⟩, ⟨3, 3, ""⟩]
      ⟨5, 0⟩ ⟨5, 0⟩ (by decide) (by decide) (by decide) rfl (by decide)⟩

/-- C7 as stated fails on a mailbox whose query has no results: two consecutive
`ListMessages` calls observe the same readable signal time 5, and the second call runs
the three count queries and the backing query again. -/
theorem ListMessages_empty_list_requeries :
    ListMessages (fixtureSys quiet) fixtureDeps false everything [] emptyBox start =
      .returned ([], none, reloadedEmpty, ⟨(), reloadCalls⟩) ∧
    observedSignal (fixtureSys quiet) fixtureDeps emptyBox start = some (some ⟨5, 0⟩) ∧
    observedSignal (fixtureSys quiet) fixtureDeps reloadedEmpty ⟨(), reloadCalls⟩ =
      some (some ⟨5, 0⟩) ∧
    ListMessages (fixtureSys quiet) fixtureDeps false everything [] reloadedEmpty
        ⟨(), reloadCalls⟩ =
      .returned ([], none, reloadedEmpty, ⟨(), reloadCalls ++ reloadCalls⟩) ∧
    Call.queryMessages "tag:inbox" ∈ reloadCalls ∧
    (reloadCalls.filter Call.isQuery).length = 4 :=
  ⟨by decide, by decide, by decide, by decide, by decide, by decide⟩

end Notmuch
